import Mathlib

/-!
Verification development for the asynchronous logging engine of the
Inference repository (header-only implementation in include/logger.hpp).
The C++ data model and operations are shallowly embedded as executable
Lean definitions; theorems below settle the specification claims.
-/

namespace InferenceLog

/-- Log levels, ordered by severity (enum class LogLevel, values 0..5). -/
inductive LogLevel
  | TRACE
  | DEBUG
  | INFO
  | WARN
  | ERROR
  | CRITICAL
deriving DecidableEq

/-- Underlying integer value of the LogLevel enum; the C++ comparison
`level < current_log_level` compares these values. -/
def LogLevel.toNat : LogLevel → Nat
  | .TRACE => 0
  | .DEBUG => 1
  | .INFO => 2
  | .WARN => 3
  | .ERROR => 4
  | .CRITICAL => 5

/-- Log targets (enum class LogTarget). -/
inductive LogTarget
  | CONSOLE
  | FILE
  | BOTH
deriving DecidableEq

/-- Embeds Logger::Impl::logLevelToString (all six enum cases are covered,
so the UNKNOWN default branch is unreachable). -/
def logLevelToString : LogLevel → String
  | .TRACE => "TRACE"
  | .DEBUG => "DEBUG"
  | .INFO => "INFO"
  | .WARN => "WARN"
  | .ERROR => "ERROR"
  | .CRITICAL => "CRITICAL"

/-- Embeds Logger::Impl::logTargetToString. -/
def logTargetToString : LogTarget → String
  | .CONSOLE => "CONSOLE"
  | .FILE => "FILE"
  | .BOTH => "BOTH"

/-- The wall-clock data a single formatLogMessage call samples: the
put_time rendering of the current second, the milliseconds-since-epoch
count, and the rendering of std::this_thread::get_id(). -/
structure Timestamp where
  dateTime : String
  msSinceEpoch : Nat
  threadId : String
deriving DecidableEq

/-- Stream insertion of a string after setw(width) under the default
right-adjustment: fill characters are inserted BEFORE the text (no
std::left is ever set in formatLogMessage). -/
def padLeft (fill : Char) (width : Nat) (s : String) : String :=
  String.mk (List.replicate (width - s.length) fill) ++ s

/-- The space character (used only by the spec-worded formatter below). -/
def spaceChar : Char := Char.ofNat 32

/-- Right-padding with a fill character, as the spec describes the level
and module fields. -/
def padRight (fill : Char) (width : Nat) (s : String) : String :=
  s ++ String.mk (List.replicate (width - s.length) fill)

/-- Embeds Logger::Impl::formatLogMessage.  Note that the stream executes
`setfill('0')` before printing the milliseconds and never resets the fill
character, so the later `setw(8)` (level) and `setw(15)` (module)
insertions are filled with the character 0, on the left (default
right-adjustment). -/
def formatLogMessage (t : Timestamp) (level : LogLevel) (moduleName message : String) : String :=
  t.dateTime ++ "." ++ padLeft '0' 3 (toString (t.msSinceEpoch % 1000)) ++
  " [" ++ t.threadId ++ "]" ++
  " [" ++ padLeft '0' 8 (logLevelToString level) ++ "]" ++
  " [" ++ padLeft '0' 15 moduleName ++ "] " ++ message

/-- The formatter as the specification words it (claim C7): level and
module right-padded with spaces to widths 8 and 15.  Kept only to compare
against formatLogMessage, which embeds the source. -/
def formatLogMessageSpec (t : Timestamp) (level : LogLevel) (moduleName message : String) : String :=
  t.dateTime ++ "." ++ padLeft '0' 3 (toString (t.msSinceEpoch % 1000)) ++
  " [" ++ t.threadId ++ "]" ++
  " [" ++ padRight spaceChar 8 (logLevelToString level) ++ "]" ++
  " [" ++ padRight spaceChar 15 moduleName ++ "] " ++ message

/-- State of Logger::Impl as far as the queue/level/lifecycle logic is
concerned.  The std::ofstream is abstracted to its is_open flag (file
sizes and backups are modelled separately by FsState below), the queue of
already formatted lines is a FIFO list, and the std::thread handle is
abstracted to its joinable flag. -/
structure Impl where
  current_log_level : LogLevel
  log_target : LogTarget
  log_file_path : String
  max_file_size_bytes : Nat
  max_backup_files : Nat
  file_open : Bool
  log_queue : List String
  should_stop : Bool
  thread_joinable : Bool
deriving DecidableEq

/-- The in-class member initializers of Logger::Impl: INFO level, BOTH
target, default path, 10 MiB ceiling, 5 backups; stream closed, queue
empty, stop flag false, no thread started. -/
def Impl.mkDefault : Impl where
  current_log_level := .INFO
  log_target := .BOTH
  log_file_path := "inference_service.log"
  max_file_size_bytes := 10 * 1024 * 1024
  max_backup_files := 5
  file_open := false
  log_queue := []
  should_stop := false
  thread_joinable := false

/-- Embeds Logger::Impl::logMessage: drop the record when
`level < current_log_level`, otherwise format it (with the wall-clock
sample t) and push it at the back of the queue. -/
def Impl.logMessage (s : Impl) (t : Timestamp) (level : LogLevel)
    (moduleName message : String) : Impl :=
  if level.toNat < s.current_log_level.toNat then s
  else { s with log_queue := s.log_queue ++ [formatLogMessage t level moduleName message] }

/-- The assignment `pImpl->current_log_level = level` performed by
Logger::setLogLevel on an existing Impl. -/
def Impl.setLevel (s : Impl) (level : LogLevel) : Impl :=
  { s with current_log_level := level }

/-- Output sinks a drained record can reach. -/
inductive Sink
  | console
  | file
deriving DecidableEq

/-- Embeds Logger::Impl::writeLogMessage as the list of (sink, line)
write events it performs: console when the target is CONSOLE or BOTH,
file when the target is FILE or BOTH and the stream is open.  (The
rotation check that follows a file write is modelled on FsState below.) -/
def Impl.writeLogMessage (s : Impl) (message : String) : List (Sink × String) :=
  (if s.log_target = .CONSOLE ∨ s.log_target = .BOTH then [(Sink.console, message)] else []) ++
  (if (s.log_target = .FILE ∨ s.log_target = .BOTH) ∧ s.file_open then [(Sink.file, message)] else [])

/-- The targets configured by log_target alone (ignoring whether the file
stream actually opened): the sinks writeLogMessage addresses when no
target has failed. -/
def Impl.targetsOf (s : Impl) : List Sink :=
  (if s.log_target = .CONSOLE ∨ s.log_target = .BOTH then [Sink.console] else []) ++
  (if s.log_target = .FILE ∨ s.log_target = .BOTH then [Sink.file] else [])

/-- The inner drain loop of Logger::Impl::loggingWorker: pop the front
record, write it via writeLogMessage, continue until the queue is empty.
Returns the write events in the order they are performed. -/
def Impl.drainGo (s : Impl) : List String → List (Sink × String)
  | [] => []
  | m :: rest => s.writeLogMessage m ++ Impl.drainGo s rest

/-- One pass of the worker over the current queue: the queue is emptied
and every record is written in FIFO order. -/
def Impl.drain (s : Impl) : Impl × List (Sink × String) :=
  ({ s with log_queue := [] }, s.drainGo s.log_queue)

/-- The condition of the outer worker loop,
`while (!should_stop || !log_queue.empty())`. -/
def Impl.workerLoopCond (s : Impl) : Bool :=
  !s.should_stop || !s.log_queue.isEmpty

/-- Embeds Logger::Impl::initialize: store the configuration, open the
file stream when the target is FILE or BOTH (openOk is whether the
filesystem open succeeded), start the worker, then push the bootstrap
records through logMessage, the last one only when the target is not
console-only.  t1..t4 are the wall-clock samples of the four calls. -/
def Impl.setup (s : Impl) (log_level : LogLevel) (target : LogTarget)
    (file_path : String) (max_file_size_mb max_backup_count : Nat)
    (openOk : Bool) (t1 t2 t3 t4 : Timestamp) : Impl :=
  let s1 : Impl :=
    { s with
      current_log_level := log_level
      log_target := target
      log_file_path := file_path
      max_file_size_bytes := max_file_size_mb * 1024 * 1024
      max_backup_files := max_backup_count }
  let s2 := if target = .FILE ∨ target = .BOTH then { s1 with file_open := openOk } else s1
  let s3 := { s2 with should_stop := false, thread_joinable := true }
  let s4 := s3.logMessage t1 .INFO "LOGGER" "Logging system initialized"
  let s5 := s4.logMessage t2 .INFO "LOGGER" ("Log level: " ++ logLevelToString log_level)
  let s6 := s5.logMessage t3 .INFO "LOGGER" ("Log target: " ++ logTargetToString target)
  if target ≠ .CONSOLE then
    s6.logMessage t4 .INFO "LOGGER" ("Log file: " ++ file_path)
  else s6

/-- The hard-coded wait_for timeout of Logger::Impl::flush (1 second). -/
def flushTimeoutMs : Nat := 1000

/-- The predicate of the wait_for in Logger::Impl::flush:
`log_queue.empty() || should_stop`. -/
def Impl.flushPredicate (s : Impl) : Bool :=
  s.log_queue.isEmpty || s.should_stop

/-- Whether the wait in Logger::Impl::flush releases the caller once
elapsedMs milliseconds have passed: wait_for returns as soon as its
predicate holds, and in any case once the timeout has elapsed.  After the
wait, flush flushes the file stream when it is open. -/
def Impl.flushReturns (s : Impl) (elapsedMs : Nat) : Bool :=
  s.flushPredicate || decide (flushTimeoutMs ≤ elapsedMs)

/-- Observable steps of Logger::Impl::shutdown, in execution order. -/
inductive ShutEvent
  | flushWait
  | setStopFlag
  | joinThread
  | closeFile
deriving DecidableEq

/-- Embeds Logger::Impl::shutdown.  When the worker thread is joinable:
flush (best-effort drain wait, no queue mutation by the caller itself),
set the stop flag, notify, and join — joining lets the worker run to
termination, which (see the worker loop) empties the queue and clears
joinability.  Afterwards, unconditionally, the file stream is flushed and
closed when it is open.  Returns the new state and the event trace. -/
def Impl.shutdown (s : Impl) : Impl × List ShutEvent :=
  let p1 : Impl × List ShutEvent :=
    if s.thread_joinable then
      let sStop := { s with should_stop := true }
      let sJoin := { sStop with log_queue := [], thread_joinable := false }
      (sJoin, [ShutEvent.flushWait, ShutEvent.setStopFlag, ShutEvent.joinThread])
    else (s, [])
  if p1.1.file_open then
    ({ p1.1 with file_open := false }, p1.2 ++ [ShutEvent.closeFile])
  else p1

/-- The Logger facade: a singleton owning an optional Impl
(std::unique_ptr pImpl, null before first use). -/
structure LoggerS where
  pImpl : Option Impl
deriving DecidableEq

/-- The logger before any use: pImpl is null. -/
def LoggerS.uninit : LoggerS := ⟨none⟩

/-- Default arguments of Logger::initialize
(LogLevel::INFO, LogTarget::BOTH, "inference_service.log", 10, 5). -/
def defaultInitLevel : LogLevel := .INFO

/-- Default target argument of Logger::initialize: LogTarget::BOTH. -/
def defaultInitTarget : LogTarget := .BOTH

/-- Embeds Logger::setLogLevel: writes the threshold only when pImpl
exists; otherwise it does nothing (and creates no engine). -/
def LoggerS.setLogLevel (l : LoggerS) (level : LogLevel) : LoggerS :=
  match l.pImpl with
  | some impl => ⟨some (impl.setLevel level)⟩
  | none => l

/-- Embeds Logger::getLogLevel: the Impl threshold when pImpl exists,
LogLevel::INFO otherwise. -/
def LoggerS.getLogLevel (l : LoggerS) : LogLevel :=
  match l.pImpl with
  | some impl => impl.current_log_level
  | none => .INFO

/-- Embeds Logger::log: when pImpl is null, construct a fresh Impl and
run Impl::initialize(INFO, CONSOLE, "inference_service.log", 10, 5) on it
before delegating the record to logMessage. -/
def LoggerS.log (l : LoggerS) (openOk : Bool) (t1 t2 t3 t4 ts : Timestamp)
    (level : LogLevel) (moduleName message : String) : LoggerS :=
  match l.pImpl with
  | some impl => ⟨some (impl.logMessage ts level moduleName message)⟩
  | none =>
      let impl1 := Impl.mkDefault.setup .INFO .CONSOLE "inference_service.log" 10 5 openOk t1 t2 t3 t4
      ⟨some (impl1.logMessage ts level moduleName message)⟩

/-- Embeds Logger::initialize: construct the Impl when it does not exist
yet, then run Impl::initialize on it with the given configuration. -/
def LoggerS.initConfig (l : LoggerS) (log_level : LogLevel) (target : LogTarget)
    (file_path : String) (max_file_size_mb max_backup_count : Nat)
    (openOk : Bool) (t1 t2 t3 t4 : Timestamp) : LoggerS :=
  let impl :=
    match l.pImpl with
    | some i => i
    | none => Impl.mkDefault
  ⟨some (impl.setup log_level target file_path max_file_size_mb max_backup_count openOk t1 t2 t3 t4)⟩

/-!  File-rotation model.  The on-disk state relevant to
Logger::Impl::writeLogMessage, needsRotation and rotateLogFile: the lines
of the active file (in write order) and the contents of each backup slot
path.i.  This models the success path of the filesystem calls; the
worker's file-target branch is taken with the stream open. -/

/-- Bytes a written line occupies: the message plus std::endl. -/
def lineSize (m : String) : Nat := m.length + 1

/-- std::filesystem::file_size of a file holding the given lines. -/
def fileSize (ls : List String) : Nat := (ls.map lineSize).sum

/-- On-disk state: active file lines and backup-slot contents
(backups i is the content of path.i, none when path.i does not exist). -/
structure FsState where
  active : List String
  backups : Nat → Option (List String)

/-- Pointwise update of a backup slot (rename target, or removal). -/
def setSlot (f : Nat → Option (List String)) (i : Nat) (v : Option (List String)) :
    Nat → Option (List String) :=
  fun j => if j = i then v else f j

/-- Embeds Logger::Impl::needsRotation on an open stream whose
file_size call succeeds: `file_size(log_file_path) >= max_file_size_bytes`. -/
def needsRotation (maxBytes : Nat) (s : FsState) : Bool :=
  decide (maxBytes ≤ fileSize s.active)

/-- One iteration of the backup-aging loop of Logger::Impl::rotateLogFile
at index i: when path.i exists, delete it if i equals
max_backup_files − 1, otherwise rename it to path.(i+1); when path.i does
not exist, do nothing. -/
def rotStep (nBackups : Nat) (f : Nat → Option (List String)) (i : Nat) :
    Nat → Option (List String) :=
  match f i with
  | none => f
  | some v =>
      if i = nBackups - 1 then setSlot f i none
      else setSlot (setSlot f (i + 1) (some v)) i none

/-- The loop `for (int i = max_backup_files - 1; i >= 1; --i)` expressed
as a countdown: rotateLoop nBackups i f runs the body at indices
i, i−1, …, 1 starting from f. -/
def rotateLoop (nBackups : Nat) : Nat → (Nat → Option (List String)) → (Nat → Option (List String))
  | 0, f => f
  | k + 1, f => rotateLoop nBackups k (rotStep nBackups f (k + 1))

/-- The whole backup-aging loop of rotateLogFile, starting at index
max_backup_files − 1. -/
def shiftBackups (nBackups : Nat) (f : Nat → Option (List String)) :
    Nat → Option (List String) :=
  rotateLoop nBackups (nBackups - 1) f

/-- Embeds the success path of Logger::Impl::rotateLogFile: close the
active file, age the backups, rename the active file to path.1
(std::filesystem::rename replaces an existing path.1), and reopen a fresh
active file.  The informational rotation record is pushed onto the
in-memory queue (model above), not onto the disk state. -/
def rotateLogFile (nBackups : Nat) (s : FsState) : FsState :=
  { active := [], backups := setSlot (shiftBackups nBackups s.backups) 1 (some s.active) }

/-- The file-write branch of Logger::Impl::writeLogMessage on FsState:
append the line and its endl, flush, then rotate if the post-write size
check fires. -/
def fsWrite (maxBytes nBackups : Nat) (s : FsState) (message : String) : FsState :=
  let s1 : FsState := { s with active := s.active ++ [message] }
  if needsRotation maxBytes s1 then rotateLogFile nBackups s1 else s1

/-- Well-formed backup chain for a backup count N: files exist only in
slots 1 … N−1 (the loop above never creates slot N: the oldest slot it
touches, N−1, is deleted rather than renamed). -/
def goodChain (nBackups : Nat) (f : Nat → Option (List String)) : Prop :=
  ∀ j, (f j).isSome = true → 1 ≤ j ∧ j ≤ nBackups - 1

/-- Number of existing backup files among slots 0 … N. -/
def backupCount (nBackups : Nat) (f : Nat → Option (List String)) : Nat :=
  ((Finset.range (nBackups + 1)).filter (fun j => (f j).isSome = true)).card

/-! Helper lemmas shared by the claim theorems. -/

lemma drainGo_setLevel (s : Impl) (L : LogLevel) :
    ∀ q, (s.setLevel L).drainGo q = s.drainGo q := by
  intro q
  induction q with
  | nil => rfl
  | cons a rest ih =>
      show (s.setLevel L).writeLogMessage a ++ (s.setLevel L).drainGo rest
          = s.writeLogMessage a ++ s.drainGo rest
      rw [ih]
      rfl

lemma mem_drainGo (s : Impl) (p : Sink × String) (m : String) :
    ∀ q, m ∈ q → p ∈ s.writeLogMessage m → p ∈ s.drainGo q := by
  intro q
  induction q with
  | nil => intro h _; cases h
  | cons a rest ih =>
      intro hm hp
      rcases List.mem_cons.mp hm with h | h
      · subst h
        exact List.mem_append_left _ hp
      · exact List.mem_append_right _ (ih h hp)

lemma targets_reached (s : Impl) (h : s.file_open = true) (msg : String) :
    ∀ sk ∈ s.targetsOf, (sk, msg) ∈ s.writeLogMessage msg := by
  intro sk hsk
  cases htgt : s.log_target <;>
    simp [Impl.targetsOf, htgt] at hsk <;>
    simp [Impl.writeLogMessage, htgt, h, hsk]

/-! Claim theorems. -/

/-- C1: a log call strictly below the threshold in effect at call time is
a no-op (state unchanged, nothing formatted or enqueued); a call at or
above it enqueues exactly one formatted record, which the worker's drain
then writes to every configured target when the file stream did not fail;
draining never re-filters queued records, so a later threshold change
leaves their write events untouched. -/
theorem log_level_filter (s : Impl) (t : Timestamp) (lvl : LogLevel) (m msg : String) :
    (lvl.toNat < s.current_log_level.toNat → s.logMessage t lvl m msg = s) ∧
    (s.current_log_level.toNat ≤ lvl.toNat →
        (s.logMessage t lvl m msg).log_queue
          = s.log_queue ++ [formatLogMessage t lvl m msg]) ∧
    (s.current_log_level.toNat ≤ lvl.toNat → s.file_open = true →
        ∀ sk ∈ s.targetsOf,
          (sk, formatLogMessage t lvl m msg) ∈ ((s.logMessage t lvl m msg).drain).2) ∧
    (∀ L q, (s.setLevel L).drainGo q = s.drainGo q) := by
  refine ⟨?_, ?_, ?_, ?_⟩
  · intro h
    simp [Impl.logMessage, h]
  · intro h
    rw [Impl.logMessage, if_neg (by omega)]
  · intro h hopen sk hsk
    have hq : (s.logMessage t lvl m msg).log_queue
        = s.log_queue ++ [formatLogMessage t lvl m msg] := by
      rw [Impl.logMessage, if_neg (by omega)]
    have hsame : (s.logMessage t lvl m msg).writeLogMessage (formatLogMessage t lvl m msg)
        = s.writeLogMessage (formatLogMessage t lvl m msg) := by
      rw [Impl.logMessage]
      split <;> rfl
    have hdrain : ∀ q, (s.logMessage t lvl m msg).drainGo q = s.drainGo q := by
      intro q
      induction q with
      | nil => rfl
      | cons a rest ih =>
          show (s.logMessage t lvl m msg).writeLogMessage a ++ _ = s.writeLogMessage a ++ _
          rw [ih]
          have : (s.logMessage t lvl m msg).writeLogMessage a = s.writeLogMessage a := by
            rw [Impl.logMessage]
            split <;> rfl
          rw [this]
    show (sk, formatLogMessage t lvl m msg)
        ∈ (s.logMessage t lvl m msg).drainGo (s.logMessage t lvl m msg).log_queue
    rw [hq, hdrain]
    exact mem_drainGo s _ _ _ (by simp) (targets_reached s hopen _ sk hsk)
  · intro L q
    exact drainGo_setLevel s L q

/-- C1 witness: at the default state (threshold INFO, target BOTH, file
open), a DEBUG call is dropped and an ERROR call is enqueued and reaches
both targets on drain. -/
theorem log_level_filter_witness :
    (LogLevel.DEBUG.toNat < Impl.mkDefault.current_log_level.toNat →
        ({ Impl.mkDefault with file_open := true } : Impl).logMessage
            ⟨"d", 0, "t"⟩ .DEBUG "M" "x" = { Impl.mkDefault with file_open := true }) ∧
    (({ Impl.mkDefault with file_open := true } : Impl).current_log_level.toNat ≤ LogLevel.ERROR.toNat →
        ({ Impl.mkDefault with file_open := true } : Impl).file_open = true →
        ∀ sk ∈ ({ Impl.mkDefault with file_open := true } : Impl).targetsOf,
          (sk, formatLogMessage ⟨"d", 0, "t"⟩ .ERROR "M" "x")
            ∈ ((({ Impl.mkDefault with file_open := true } : Impl).logMessage
                ⟨"d", 0, "t"⟩ .ERROR "M" "x").drain).2) :=
  ⟨fun h => (log_level_filter { Impl.mkDefault with file_open := true } ⟨"d", 0, "t"⟩ .DEBUG "M" "x").1 h,
   fun h hopen => (log_level_filter { Impl.mkDefault with file_open := true } ⟨"d", 0, "t"⟩ .ERROR "M" "x").2.2.1 h hopen⟩

/-- C2: the worker loop condition is false exactly when stop has been
requested and the queue is empty — the worker never exits with a
non-empty queue — and when stop is set with records queued, one drain
pass writes every queued record (each to its writeLogMessage sinks),
empties the queue, and reaches a state where the loop exits. -/
theorem worker_drains_before_exit (s : Impl) :
    (s.workerLoopCond = false ↔ (s.should_stop = true ∧ s.log_queue = [])) ∧
    (s.should_stop = true →
        (s.drain).1.log_queue = [] ∧
        (s.drain).1.workerLoopCond = false ∧
        ∀ m ∈ s.log_queue, ∀ p ∈ s.writeLogMessage m, p ∈ (s.drain).2) := by
  constructor
  · simp [Impl.workerLoopCond, List.isEmpty_iff]
  · intro h
    refine ⟨rfl, ?_, ?_⟩
    · simp [Impl.drain, Impl.workerLoopCond, h]
    · intro m hm p hp
      exact mem_drainGo s p m s.log_queue hm hp

/-- C2 witness: with stop set and two records queued, the drain empties
the queue and the loop exits. -/
theorem worker_drains_before_exit_witness :
    ({ Impl.mkDefault with should_stop := true, log_queue := ["a", "b"] } : Impl).should_stop = true ∧
    (({ Impl.mkDefault with should_stop := true, log_queue := ["a", "b"] } : Impl).drain).1.log_queue = [] ∧
    (({ Impl.mkDefault with should_stop := true, log_queue := ["a", "b"] } : Impl).drain).1.workerLoopCond = false :=
  ⟨rfl,
   ((worker_drains_before_exit { Impl.mkDefault with should_stop := true, log_queue := ["a", "b"] }).2 rfl).1,
   ((worker_drains_before_exit { Impl.mkDefault with should_stop := true, log_queue := ["a", "b"] }).2 rfl).2.1⟩

/-- C5: on a running engine, shutdown performs flush, then sets the stop
flag and wakes the worker, then joins, then closes the file exactly when
it is open; the resulting state has no joinable thread and no open file,
and running shutdown again produces the same state and an empty event
trace — in particular no second close of the already-closed file. -/
theorem shutdown_sequence_idempotent (s : Impl) (h : s.thread_joinable = true) :
    (s.shutdown).2 = [ShutEvent.flushWait, ShutEvent.setStopFlag, ShutEvent.joinThread]
        ++ (if s.file_open then [ShutEvent.closeFile] else []) ∧
    (s.shutdown).2.count ShutEvent.closeFile ≤ 1 ∧
    (s.shutdown).1.thread_joinable = false ∧
    (s.shutdown).1.file_open = false ∧
    ((s.shutdown).1).shutdown = ((s.shutdown).1, []) := by
  by_cases hf : s.file_open = true
  · have hsh : s.shutdown
        = ({ s with
              should_stop := true
              log_queue := []
              thread_joinable := false
              file_open := false },
           [ShutEvent.flushWait, ShutEvent.setStopFlag, ShutEvent.joinThread,
            ShutEvent.closeFile]) := by
      rw [Impl.shutdown]
      simp [h, hf]
    refine ⟨?_, ?_, ?_, ?_, ?_⟩
    · rw [hsh]
      simp [hf]
    · rw [hsh]
      show List.count ShutEvent.closeFile
        [ShutEvent.flushWait, ShutEvent.setStopFlag, ShutEvent.joinThread,
         ShutEvent.closeFile] ≤ 1
      decide
    · rw [hsh]
    · rw [hsh]
    · rw [hsh]
      rw [Impl.shutdown]
      simp
  · have hf' : s.file_open = false := by
      simpa using hf
    have hsh : s.shutdown
        = ({ s with
              should_stop := true
              log_queue := []
              thread_joinable := false },
           [ShutEvent.flushWait, ShutEvent.setStopFlag, ShutEvent.joinThread]) := by
      rw [Impl.shutdown]
      simp [h, hf']
    refine ⟨?_, ?_, ?_, ?_, ?_⟩
    · rw [hsh]
      simp [hf']
    · rw [hsh]
      show List.count ShutEvent.closeFile
        [ShutEvent.flushWait, ShutEvent.setStopFlag, ShutEvent.joinThread] ≤ 1
      decide
    · rw [hsh]
    · rw [hsh]
      exact hf'
    · rw [hsh]
      rw [Impl.shutdown]
      simp [hf']

/-- C5 witness: shutdown of a running engine with an open file emits the
four-step trace once and a second shutdown is a no-op with no close. -/
theorem shutdown_sequence_idempotent_witness :
    ({ Impl.mkDefault with thread_joinable := true, file_open := true } : Impl).thread_joinable = true ∧
    (({ Impl.mkDefault with thread_joinable := true, file_open := true } : Impl).shutdown).2
      = [ShutEvent.flushWait, ShutEvent.setStopFlag, ShutEvent.joinThread]
        ++ (if ({ Impl.mkDefault with thread_joinable := true, file_open := true } : Impl).file_open
            then [ShutEvent.closeFile] else []) ∧
    ((({ Impl.mkDefault with thread_joinable := true, file_open := true } : Impl).shutdown).1).shutdown
      = ((({ Impl.mkDefault with thread_joinable := true, file_open := true } : Impl).shutdown).1, []) :=
  ⟨rfl,
   (shutdown_sequence_idempotent { Impl.mkDefault with thread_joinable := true, file_open := true } rfl).1,
   (shutdown_sequence_idempotent { Impl.mkDefault with thread_joinable := true, file_open := true } rfl).2.2.2.2⟩

/-- C9: on an existing engine, setLevel followed by getLevel returns the
new level immediately and independently of the queue (the queue is left
untouched and the drain writes are unchanged), and the new threshold is
what subsequent log calls are filtered against. -/
theorem setLevel_then_getLevel (l : LoggerS) (impl : Impl) (L : LogLevel)
    (h : l.pImpl = some impl) :
    (l.setLogLevel L).getLogLevel = L ∧
    (l.setLogLevel L).pImpl = some (impl.setLevel L) ∧
    (impl.setLevel L).log_queue = impl.log_queue ∧
    (∀ q, (impl.setLevel L).drainGo q = impl.drainGo q) ∧
    (∀ t lvl m msg, lvl.toNat < L.toNat →
        (impl.setLevel L).logMessage t lvl m msg = impl.setLevel L) := by
  refine ⟨?_, ?_, rfl, drainGo_setLevel impl L, ?_⟩
  · simp [LoggerS.setLogLevel, h, LoggerS.getLogLevel, Impl.setLevel]
  · simp [LoggerS.setLogLevel, h]
  · intro t lvl m msg hlt
    simp [Impl.logMessage, Impl.setLevel, hlt]

/-- C9 witness: setLevel(DEBUG) on an initialized engine makes getLevel
return DEBUG at once, with the queue untouched. -/
theorem setLevel_then_getLevel_witness :
    (LoggerS.mk (some Impl.mkDefault)).pImpl = some Impl.mkDefault ∧
    ((LoggerS.mk (some Impl.mkDefault)).setLogLevel .DEBUG).getLogLevel = .DEBUG ∧
    (Impl.mkDefault.setLevel .DEBUG).log_queue = Impl.mkDefault.log_queue :=
  ⟨rfl,
   (setLevel_then_getLevel (LoggerS.mk (some Impl.mkDefault)) Impl.mkDefault .DEBUG rfl).1,
   (setLevel_then_getLevel (LoggerS.mk (some Impl.mkDefault)) Impl.mkDefault .DEBUG rfl).2.2.1⟩

/-- C10: before the engine exists, getLevel returns INFO without creating
it, setLevel is a silent no-op for every level (getLevel still returns
INFO afterwards), and the first log call lazily creates the engine with
minimum level INFO and target Console-only — not the BOTH target that
explicit initialize defaults to — leaving the file stream closed. -/
theorem uninitialized_logger_behavior :
    LoggerS.uninit.getLogLevel = .INFO ∧
    (∀ L, LoggerS.uninit.setLogLevel L = LoggerS.uninit) ∧
    (∀ L, (LoggerS.uninit.setLogLevel L).getLogLevel = .INFO) ∧
    (∀ ok t1 t2 t3 t4 ts lvl m msg,
        (LoggerS.uninit.log ok t1 t2 t3 t4 ts lvl m msg).getLogLevel = .INFO ∧
        (LoggerS.uninit.log ok t1 t2 t3 t4 ts lvl m msg).pImpl.map Impl.log_target
          = some LogTarget.CONSOLE ∧
        (LoggerS.uninit.log ok t1 t2 t3 t4 ts lvl m msg).pImpl.map Impl.file_open
          = some false) ∧
    LogTarget.CONSOLE ≠ defaultInitTarget := by
  refine ⟨rfl, fun L => rfl, fun L => rfl, ?_, by decide⟩
  intro ok t1 t2 t3 t4 ts lvl m msg
  refine ⟨?_, ?_, ?_⟩ <;>
    simp [LoggerS.log, LoggerS.uninit, LoggerS.getLogLevel, Impl.setup, Impl.mkDefault,
      Impl.logMessage] <;>
    split <;>
    rfl

/-- A state refuting C6 as stated: stop requested while a record is
still queued. -/
def flushCexState : Impl :=
  { Impl.mkDefault with log_queue := ["x"], should_stop := true }

/-- C6 counterexample: with the stop flag set and a non-empty queue, the
wait in flush releases the caller at elapsed time 0 — before the queue is
observed empty and before the 1000 ms timeout — because the wait_for
predicate is queue-empty OR stop. -/
theorem flush_returns_on_stop_counterexample :
    flushCexState.flushReturns 0 = true ∧
    flushCexState.log_queue ≠ [] ∧
    ¬ (flushTimeoutMs ≤ 0) := by
  decide

/-- C6 amended: the wait in flush releases the caller exactly when the
queue is observed empty, or the stop flag is set, or the fixed 1000 ms
timeout has elapsed; in particular while no shutdown is in progress
(stop flag clear) it releases exactly on empty-queue-or-timeout, which is
the flush-convergence property. -/
theorem flush_wait_condition (s : Impl) (e : Nat) :
    (s.flushReturns e = true
        ↔ (s.log_queue = [] ∨ s.should_stop = true ∨ flushTimeoutMs ≤ e)) ∧
    (s.should_stop = false →
        (s.flushReturns e = true ↔ (s.log_queue = [] ∨ flushTimeoutMs ≤ e))) := by
  constructor
  · simp [Impl.flushReturns, Impl.flushPredicate, List.isEmpty_iff, or_assoc]
  · intro h
    simp [Impl.flushReturns, Impl.flushPredicate, h, List.isEmpty_iff]

/-- C6 witness: with producers stopped and no shutdown in progress, an
empty queue releases the flush wait at once. -/
theorem flush_wait_condition_witness :
    Impl.mkDefault.should_stop = false ∧
    (Impl.mkDefault.flushReturns 0 = true ↔
        (Impl.mkDefault.log_queue = [] ∨ flushTimeoutMs ≤ 0)) :=
  ⟨rfl, (flush_wait_condition Impl.mkDefault 0).2 rfl⟩

/-- The wall-clock sample used by the C7 counterexample. -/
def fmtCexTime : Timestamp := ⟨"2024-01-01 00:00:00", 7, "140123"⟩

/-- C7 counterexample: at a concrete record the formatter does not
right-pad the level and module fields with spaces; the sticky
setfill of the milliseconds makes both fields left-padded with the digit
0 (the line is [0000INFO], not [INFO    ]). -/
theorem format_padding_counterexample :
    formatLogMessage fmtCexTime .INFO "TEST" "msg"
      = "2024-01-01 00:00:00.007 [140123] [0000INFO] [00000000000TEST] msg" ∧
    formatLogMessage fmtCexTime .INFO "TEST" "msg"
      ≠ formatLogMessageSpec fmtCexTime .INFO "TEST" "msg" := by
  decide

/-- C7 amended: the formatter is deterministic with the fixed field order
date.milliseconds [thread] [level] [module] message, the level name is
one of the six literals, and the level and module fields are right
ALIGNED — padded on the left, with the fill character 0 inherited from
the milliseconds formatting — to widths 8 and 15 respectively (a module
name longer than 15 is not truncated). -/
theorem format_field_layout (t : Timestamp) (lvl : LogLevel) (m msg : String) :
    formatLogMessage t lvl m msg
      = t.dateTime ++ "." ++ padLeft '0' 3 (toString (t.msSinceEpoch % 1000)) ++
        " [" ++ t.threadId ++ "]" ++
        " [" ++ padLeft '0' 8 (logLevelToString lvl) ++ "]" ++
        " [" ++ padLeft '0' 15 m ++ "] " ++ msg ∧
    (padLeft '0' 8 (logLevelToString lvl)).length = 8 ∧
    (padLeft '0' 15 m).length = max 15 m.length ∧
    logLevelToString lvl ∈ ["TRACE", "DEBUG", "INFO", "WARN", "ERROR", "CRITICAL"] := by
  refine ⟨rfl, ?_, ?_, ?_⟩
  · cases lvl <;> decide
  · show (String.mk (List.replicate (15 - m.length) '0') ++ m).length = max 15 m.length
    rw [String.length_append]
    show (List.replicate (15 - m.length) '0').length + m.length = max 15 m.length
    rw [List.length_replicate]
    omega
  · cases lvl <;> decide

/-- The wall-clock sample used by the C8 counterexample. -/
def bootTime : Timestamp := ⟨"2024-01-01 00:00:00", 0, "1"⟩

/-- C8 counterexample: with the default configuration (level INFO, target
BOTH) initialize enqueues FOUR bootstrap records, not exactly three: the
general initialization notice, the level, the target, and the file path. -/
theorem bootstrap_count_counterexample :
    (Impl.mkDefault.setup .INFO .BOTH "inference_service.log" 10 5 true
        bootTime bootTime bootTime bootTime).log_queue.length = 4 ∧
    (Impl.mkDefault.setup .INFO .BOTH "inference_service.log" 10 5 true
        bootTime bootTime bootTime bootTime).log_queue.length ≠ 3 := by
  decide

/-- C8 amended: initialize stores the configuration, opens the file
stream exactly when the target is File or Both, starts the worker, and
pushes the bootstrap records through the normal (threshold-filtered)
pipeline: when the configured minimum level is at most INFO it enqueues
the initialization notice, the level record and the target record, plus a
fourth record with the file path when the target is not console-only;
when the minimum level is above INFO all bootstrap records are filtered
out. -/
theorem setup_effects (s : Impl) (lvl : LogLevel) (tgt : LogTarget) (fp : String)
    (mb nb : Nat) (ok : Bool) (t1 t2 t3 t4 : Timestamp) :
    (s.setup lvl tgt fp mb nb ok t1 t2 t3 t4).current_log_level = lvl ∧
    (s.setup lvl tgt fp mb nb ok t1 t2 t3 t4).log_target = tgt ∧
    (s.setup lvl tgt fp mb nb ok t1 t2 t3 t4).log_file_path = fp ∧
    (s.setup lvl tgt fp mb nb ok t1 t2 t3 t4).max_file_size_bytes = mb * 1024 * 1024 ∧
    (s.setup lvl tgt fp mb nb ok t1 t2 t3 t4).max_backup_files = nb ∧
    (s.setup lvl tgt fp mb nb ok t1 t2 t3 t4).file_open
      = (if tgt = .CONSOLE then s.file_open else ok) ∧
    (s.setup lvl tgt fp mb nb ok t1 t2 t3 t4).thread_joinable = true ∧
    (s.setup lvl tgt fp mb nb ok t1 t2 t3 t4).should_stop = false ∧
    (s.setup lvl tgt fp mb nb ok t1 t2 t3 t4).log_queue
      = s.log_queue ++
        (if 2 < lvl.toNat then []
         else
           [formatLogMessage t1 .INFO "LOGGER" "Logging system initialized",
            formatLogMessage t2 .INFO "LOGGER" ("Log level: " ++ logLevelToString lvl),
            formatLogMessage t3 .INFO "LOGGER" ("Log target: " ++ logTargetToString tgt)]
           ++ (if tgt = .CONSOLE then []
               else [formatLogMessage t4 .INFO "LOGGER" ("Log file: " ++ fp)])) := by
  cases tgt <;> cases lvl <;>
    simp [Impl.setup, Impl.logMessage, LogLevel.toNat]

/-! Closed form of the backup-aging loop. -/

lemma rotStep_untouched (nB : Nat) (f : Nat → Option (List String)) (i j : Nat)
    (h1 : j ≠ i) (h2 : j ≠ i + 1) : rotStep nB f i j = f j := by
  unfold rotStep
  cases f i with
  | none => rfl
  | some v =>
      by_cases hd : i = nB - 1
      · subst hd
        simp [setSlot, h1]
      · simp [hd, setSlot, h1, h2]

lemma rotStep_delete (nB : Nat) (f : Nat → Option (List String))
    (_h : nB - 1 ≥ 1) (j : Nat) :
    rotStep nB f (nB - 1) j = if j = nB - 1 then none else f j := by
  unfold rotStep
  cases hfi : f (nB - 1) with
  | none =>
      by_cases hj : j = nB - 1 <;> simp [hj, hfi]
  | some v =>
      simp [setSlot]

/-- What the aging loop running from index i down to 1 (all of them in
the rename branch) leaves in slot j. -/
def agedAt (i : Nat) (f : Nat → Option (List String)) (j : Nat) : Option (List String) :=
  if j = 1 then none
  else if 2 ≤ j ∧ j ≤ i then f (j - 1)
  else if j = i + 1 then (if (f i).isSome then f i else f (i + 1))
  else f j

lemma rotStep_shift_eval (nB : Nat) (f : Nat → Option (List String)) (i : Nat)
    (h : i ≠ nB - 1) :
    (rotStep nB f i i = none) ∧
    (rotStep nB f i (i + 1) = (if (f i).isSome then f i else f (i + 1))) := by
  constructor
  · unfold rotStep
    cases hfi : f i with
    | none => exact hfi
    | some v => simp [h, setSlot]
  · unfold rotStep
    cases hfi : f i with
    | none => simp
    | some v => simp [h, setSlot]

lemma rotateLoop_agedAt (nB : Nat) :
    ∀ (i : Nat), 1 ≤ i → i < nB - 1 →
      ∀ (f : Nat → Option (List String)) (j : Nat),
        rotateLoop nB i f j = agedAt i f j := by
  intro i
  induction i with
  | zero => intro h1 _ _ _; omega
  | succ k ih =>
      intro _ hlt f j
      show rotateLoop nB k (rotStep nB f (k + 1)) j = agedAt (k + 1) f j
      rcases Nat.eq_zero_or_pos k with hk0 | hkpos
      · subst hk0
        show rotStep nB f 1 j = agedAt 1 f j
        have hne : (1 : Nat) ≠ nB - 1 := by omega
        unfold agedAt
        by_cases hj1 : j = 1
        · subst hj1
          simp [(rotStep_shift_eval nB f 1 hne).1]
        · by_cases hj2 : j = 2
          · subst hj2
            simp [(rotStep_shift_eval nB f 1 hne).2]
          · have : rotStep nB f 1 j = f j :=
              rotStep_untouched nB f 1 j hj1 (by omega)
            simp [hj1, hj2, this, show ¬(2 ≤ j ∧ j ≤ 1) by omega]
      · set g := rotStep nB f (k + 1) with hg
        have hne : k + 1 ≠ nB - 1 := by omega
        have hgeval := rotStep_shift_eval nB f (k + 1) hne
        have hgtop : g (k + 1) = none := by
          rcases hfs : f (k + 1) with _ | v
          · rw [hg]
            unfold rotStep
            rw [hfs]
            exact hfs
          · rw [hg]
            unfold rotStep
            rw [hfs]
            simp [hne, setSlot]
        have hgnext : g (k + 2) = (if (f (k + 1)).isSome then f (k + 1) else f (k + 2)) :=
          hgeval.2
        have hgother : ∀ j, j ≠ k + 1 → j ≠ k + 2 → g j = f j := by
          intro j h1 h2
          exact rotStep_untouched nB f (k + 1) j h1 h2
        rw [ih (by omega) (by omega) g j]
        unfold agedAt
        by_cases hj1 : j = 1
        · simp [hj1]
        · by_cases hjmid : 2 ≤ j ∧ j ≤ k
          · have : g (j - 1) = f (j - 1) := hgother (j - 1) (by omega) (by omega)
            simp [hj1, hjmid, show 2 ≤ j ∧ j ≤ k + 1 by omega, this]
          · by_cases hjtop : j = k + 1
            · have hgi : g k = f k := hgother k (by omega) (by omega)
              have : (if (g k).isSome then g k else g (k + 1))
                  = (if (f k).isSome then f k else none) := by
                rw [hgi, hgtop]
              rw [if_neg hj1, if_neg hjmid, if_pos hjtop]
              rw [if_neg hj1, if_pos (show 2 ≤ j ∧ j ≤ k + 1 by omega)]
              rw [hjtop, this]
              rcases hfk : f k with _ | v <;> simp [hfk]
            · by_cases hjnext : j = k + 2
              · rw [if_neg hj1, if_neg hjmid, if_neg (by omega), if_neg (by omega),
                  if_neg (show ¬(2 ≤ j ∧ j ≤ k + 1) by omega),
                  if_pos (show j = k + 1 + 1 by omega)]
                rw [hjnext]
                exact hgnext
              · have : g j = f j := hgother j hjtop hjnext
                rw [if_neg hj1, if_neg hjmid, if_neg (by omega), if_neg (by omega),
                  if_neg (show ¬(2 ≤ j ∧ j ≤ k + 1) by omega),
                  if_neg (show ¬(j = k + 1 + 1) by omega)]
                exact this

/-- Pointwise description of the whole aging loop of rotateLogFile for a
backup count of at least 2: slot 1 is vacated, slots 2 … N−1 receive the
previous occupant of the slot below, and every other slot — in
particular slot N, which the loop never renames into — is untouched. -/
lemma shiftBackups_closed (nB : Nat) (hN : 2 ≤ nB) (f : Nat → Option (List String)) (j : Nat) :
    shiftBackups nB f j =
      if j = 1 then none
      else if 2 ≤ j ∧ j ≤ nB - 1 then f (j - 1)
      else f j := by
  rcases Nat.lt_or_ge nB 3 with h3 | h3
  · have hnb : nB = 2 := by omega
    subst hnb
    show rotateLoop 2 1 f j = _
    have : rotateLoop 2 1 f j = rotStep 2 f 1 j := rfl
    rw [this, rotStep_delete 2 f (by omega) j]
    by_cases hj : j = 1
    · simp [hj]
    · simp [hj, show ¬(2 ≤ j ∧ j ≤ 1) by omega]
  · obtain ⟨k, hk⟩ : ∃ k, nB - 1 = k + 1 := ⟨nB - 2, by omega⟩
    have hstep : shiftBackups nB f = rotateLoop nB k (rotStep nB f (k + 1)) := by
      unfold shiftBackups
      rw [hk]
      rfl
    have hktop : k + 1 = nB - 1 := hk.symm
    set d := rotStep nB f (k + 1) with hd
    have hdel : ∀ j, d j = if j = nB - 1 then none else f j := by
      intro j
      rw [hd, hktop]
      exact rotStep_delete nB f (by omega) j
    rw [hstep, rotateLoop_agedAt nB k (by omega) (by omega) d j]
    unfold agedAt
    by_cases hj1 : j = 1
    · simp [hj1]
    · by_cases hjmid : 2 ≤ j ∧ j ≤ k
      · have : d (j - 1) = f (j - 1) := by
          rw [hdel]
          rw [if_neg (by omega)]
        simp [hj1, hjmid, show 2 ≤ j ∧ j ≤ nB - 1 by omega, this]
      · by_cases hjtop : j = k + 1
        · have hdk : d k = f k := by
            rw [hdel, if_neg (by omega)]
          have hdk1 : d (k + 1) = none := by
            rw [hdel, if_pos (by omega)]
          rw [if_neg hj1, if_neg hjmid, if_pos hjtop]
          rw [if_neg hj1, if_pos (show 2 ≤ j ∧ j ≤ nB - 1 by omega)]
          rw [hdk, hdk1, hjtop]
          have hjk : k + 1 - 1 = k := by omega
          rw [hjk]
          rcases hfk : f k with _ | v <;> simp
        · have hdj : d j = f j := by
            rw [hdel, if_neg (by omega)]
          rw [if_neg hj1, if_neg hjmid, if_neg hjtop, hdj,
            if_neg hj1, if_neg (show ¬(2 ≤ j ∧ j ≤ nB - 1) by omega)]

lemma fileSize_append_one (a : List String) (m : String) :
    fileSize (a ++ [m]) = fileSize a + lineSize m := by
  simp [fileSize]

lemma fsWrite_size_lt (maxBytes nBackups : Nat) (hmax : 1 ≤ maxBytes)
    (s : FsState) (msg : String) :
    fileSize (fsWrite maxBytes nBackups s msg).active < maxBytes := by
  unfold fsWrite
  by_cases h : maxBytes ≤ fileSize (s.active ++ [msg])
  · have hr : needsRotation maxBytes { s with active := s.active ++ [msg] } = true := by
      simp [needsRotation]
      exact h
    rw [if_pos hr]
    show fileSize ([] : List String) < maxBytes
    simpa [fileSize] using hmax
  · have hr : needsRotation maxBytes { s with active := s.active ++ [msg] } = false := by
      simp [needsRotation]
      omega
    rw [if_neg (by simp [hr])]
    show fileSize (s.active ++ [msg]) < maxBytes
    omega

lemma foldl_fsWrite_size_lt (maxBytes nBackups : Nat) (hmax : 1 ≤ maxBytes) :
    ∀ (msgs : List String) (s : FsState), fileSize s.active < maxBytes →
      fileSize ((msgs.foldl (fsWrite maxBytes nBackups) s).active) < maxBytes := by
  intro msgs
  induction msgs with
  | nil => intro s hs; exact hs
  | cons m rest ih =>
      intro s _
      exact ih (fsWrite maxBytes nBackups s m) (fsWrite_size_lt maxBytes nBackups hmax s m)

/-- C3 counterexample: a write that lands the active file at exactly the
ceiling (4 bytes here: a three-character line plus its newline) already
triggers rotation — needsRotation fires at sizes equal to the ceiling,
not only strictly above it. -/
theorem rotation_at_ceiling_counterexample :
    fileSize ["abc"] = 4 ∧
    ¬ (4 < fileSize ["abc"]) ∧
    needsRotation 4 ⟨["abc"], fun _ => none⟩ = true ∧
    (fsWrite 4 2 ⟨[], fun _ => none⟩ "abc").backups 1 = some ["abc"] ∧
    (fsWrite 4 2 ⟨[], fun _ => none⟩ "abc").active = [] := by
  decide

/-- C3 amended: the size check runs only after a file write completes and
rotation is performed exactly when the measured size is at least (≥, not
strictly above) the ceiling; consequently the size observed by the check
exceeds the ceiling by less than one record's length, and after any
number of writes starting inside the ceiling the active file ends below
the ceiling. -/
theorem rotation_trigger_and_bound (maxBytes nBackups : Nat) (s : FsState)
    (msg : String) (msgs : List String)
    (hmax : 1 ≤ maxBytes) (hs : fileSize s.active < maxBytes) :
    (needsRotation maxBytes { s with active := s.active ++ [msg] } = true
        ↔ maxBytes ≤ fileSize s.active + lineSize msg) ∧
    fileSize (s.active ++ [msg]) < maxBytes + lineSize msg ∧
    (fsWrite maxBytes nBackups s msg
        = if needsRotation maxBytes { s with active := s.active ++ [msg] }
          then rotateLogFile nBackups { s with active := s.active ++ [msg] }
          else { s with active := s.active ++ [msg] }) ∧
    fileSize ((msgs.foldl (fsWrite maxBytes nBackups) s).active) < maxBytes := by
  refine ⟨?_, ?_, rfl, foldl_fsWrite_size_lt maxBytes nBackups hmax msgs s hs⟩
  · simp [needsRotation, fileSize_append_one]
  · rw [fileSize_append_one]
    omega

/-- C3 witness: ceiling 10, empty file, one 4-byte record. -/
theorem rotation_trigger_and_bound_witness :
    1 ≤ 10 ∧ fileSize ([] : List String) < 10 ∧
    (needsRotation 10 ⟨[] ++ ["abc"], fun _ => none⟩ = true
        ↔ 10 ≤ fileSize ([] : List String) + lineSize "abc") ∧
    fileSize (([] : List String) ++ ["abc"]) < 10 + lineSize "abc" :=
  ⟨by decide, by decide,
   (rotation_trigger_and_bound 10 2 ⟨[], fun _ => none⟩ "abc" [] (by decide) (by decide)).1,
   (rotation_trigger_and_bound 10 2 ⟨[], fun _ => none⟩ "abc" [] (by decide) (by decide)).2.1⟩

/-- C4 counterexample: with max backup count N = 2 (not 1), rotating a
second time does not move the prior path.1 to path.2 — the aging loop
deletes slot N−1 = 1 — so after two rotations path.2 does not exist and
path.1 holds only the most recent rotated-out file. -/
theorem backup_slot_two_counterexample :
    (rotateLogFile 2 { rotateLogFile 2 ⟨["A"], fun _ => none⟩ with active := ["B"] }).backups 2
      = none ∧
    (rotateLogFile 2 { rotateLogFile 2 ⟨["A"], fun _ => none⟩ with active := ["B"] }).backups 1
      = some ["B"] := by
  decide

/-- C4 amended: for every max backup count N ≥ 2, rotation keeps the
chain inside indices path.1 … path.(N−1), path.1 always receives the
just-rotated-out active file, at most N−1 backups exist (the loop deletes
the oldest slot, N−1, instead of renaming it to N, so path.N is never
created), and rotating twice moves the prior index-1 file to index-2
exactly when N ≥ 3 — for N = 2 it is deleted; for N = 1 the aging loop is
empty and the rename of the active file overwrites path.1. -/
theorem backup_chain_shape (nB : Nat) (s : FsState)
    (hN : 2 ≤ nB) (hch : goodChain nB s.backups) :
    (rotateLogFile nB s).backups 1 = some s.active ∧
    goodChain nB (rotateLogFile nB s).backups ∧
    backupCount nB (rotateLogFile nB s).backups ≤ nB - 1 ∧
    ((rotateLogFile nB (rotateLogFile nB s)).backups 2
        = if nB = 2 then none else some s.active) ∧
    (∀ u : FsState, (rotateLogFile 1 u).backups 1 = some u.active) := by
  have hslot1 : ∀ (u : FsState), (rotateLogFile nB u).backups 1 = some u.active := by
    intro u
    show setSlot (shiftBackups nB u.backups) 1 (some u.active) 1 = some u.active
    simp [setSlot]
  have hgood : ∀ (u : FsState), goodChain nB u.backups →
      goodChain nB (rotateLogFile nB u).backups := by
    intro u hu j hj
    by_cases hj1 : j = 1
    · omega
    · have : (rotateLogFile nB u).backups j = shiftBackups nB u.backups j := by
        show setSlot (shiftBackups nB u.backups) 1 (some u.active) j = _
        simp [setSlot, hj1]
      rw [this, shiftBackups_closed nB hN u.backups j, if_neg hj1] at hj
      by_cases hmid : 2 ≤ j ∧ j ≤ nB - 1
      · omega
      · rw [if_neg hmid] at hj
        have := hu j hj
        omega
  refine ⟨hslot1 s, hgood s hch, ?_, ?_, ?_⟩
  · have hg := hgood s hch
    unfold backupCount
    have hsub : (Finset.range (nB + 1)).filter
        (fun j => ((rotateLogFile nB s).backups j).isSome = true) ⊆ Finset.Icc 1 (nB - 1) := by
      intro j hj
      rw [Finset.mem_filter] at hj
      have := hg j hj.2
      rw [Finset.mem_Icc]
      omega
    calc ((Finset.range (nB + 1)).filter
            (fun j => ((rotateLogFile nB s).backups j).isSome = true)).card
        ≤ (Finset.Icc 1 (nB - 1)).card := Finset.card_le_card hsub
      _ = nB - 1 := by
          rw [Nat.card_Icc]
          omega
  · have h2ne1 : (2 : Nat) ≠ 1 := by omega
    have step1 : (rotateLogFile nB (rotateLogFile nB s)).backups 2
        = shiftBackups nB (rotateLogFile nB s).backups 2 := by
      simp [rotateLogFile, setSlot]
    rw [step1, shiftBackups_closed nB hN _ 2, if_neg h2ne1]
    by_cases hnb2 : nB = 2
    · rw [if_neg (by omega), if_pos hnb2]
      have : (rotateLogFile nB s).backups 2 = shiftBackups nB s.backups 2 := by
        simp [rotateLogFile, setSlot]
      rw [this, shiftBackups_closed nB hN s.backups 2, if_neg h2ne1, if_neg (by omega)]
      rcases hs2 : s.backups 2 with _ | v
      · rfl
      · exfalso
        have hb2 : (s.backups 2).isSome = true := by
          rw [hs2]
          rfl
        have := hch 2 hb2
        omega
    · rw [if_pos (by omega), if_neg hnb2]
      show (rotateLogFile nB s).backups 1 = some s.active
      exact hslot1 s
  · intro u
    show setSlot (shiftBackups 1 u.backups) 1 (some u.active) 1 = some u.active
    simp [setSlot]

/-- C4 witness: N = 3, empty chain with active content A. -/
theorem backup_chain_shape_witness :
    2 ≤ 3 ∧ goodChain 3 (FsState.mk ["A"] (fun _ => none)).backups ∧
    (rotateLogFile 3 (FsState.mk ["A"] (fun _ => none))).backups 1 = some ["A"] ∧
    ((rotateLogFile 3 (rotateLogFile 3 (FsState.mk ["A"] (fun _ => none)))).backups 2
        = if 3 = 2 then none else some ["A"]) :=
  ⟨by omega,
   fun j hj => by simp at hj,
   (backup_chain_shape 3 (FsState.mk ["A"] (fun _ => none)) (by omega)
      (fun j hj => by simp at hj)).1,
   (backup_chain_shape 3 (FsState.mk ["A"] (fun _ => none)) (by omega)
      (fun j hj => by simp at hj)).2.2.2.1⟩

end InferenceLog
